import Mathlib

/-!
Verification of the approximate-equality evaluation core of `test_help-rs`
(`src/lib.rs`).

Double-precision values are modelled by `F64`: NaN, the two infinities, and
finite values carried exactly as rationals (the spec describes the interval
arithmetic exactly; rounding of finite arithmetic is below this abstraction
level).  IEEE comparison semantics are modelled faithfully: NaN compares
unequal to everything (including itself) and incomparable under `<=`;
`-0.0 == 0.0` holds because the model identifies the two zeros, which is
observationally equivalent since the source only inspects values through
IEEE `==`, `<=` and `RangeInclusive::contains`.

The crate is built without the `nan-equality` feature (the default), so the
`#[cfg(feature = "nan-equality")]` blocks are absent from the model.
-/

/-- Model of an IEEE-754 double: NaN, an infinity (`true` = positive), or a
finite value represented exactly. -/
inductive F64 where
  | nan : F64
  | inf : Bool → F64
  | fin : ℚ → F64
deriving DecidableEq, Repr

namespace F64

/-- IEEE `==` on doubles: NaN is equal to nothing, infinities compare by
sign, finite values by value. -/
def ieeeEq : F64 → F64 → Bool
  | .nan, _ => false
  | _, .nan => false
  | .inf s, .inf t => s == t
  | .inf _, .fin _ => false
  | .fin _, .inf _ => false
  | .fin q, .fin r => q == r

/-- IEEE `<=` on doubles: any comparison involving NaN is false. -/
def ieeeLe : F64 → F64 → Bool
  | .nan, _ => false
  | _, .nan => false
  | .inf s, .inf t => !s || t
  | .inf s, .fin _ => !s
  | .fin _, .inf t => t
  | .fin q, .fin r => decide (q ≤ r)

/-- IEEE `<` on doubles: any comparison involving NaN is false. -/
def ieeeLt : F64 → F64 → Bool
  | .nan, _ => false
  | _, .nan => false
  | .inf s, .inf t => !s && t
  | .inf s, .fin _ => !s
  | .fin _, .inf t => t
  | .fin q, .fin r => decide (q < r)

/-- IEEE negation (sign flip). -/
def neg : F64 → F64
  | .nan => .nan
  | .inf s => .inf (!s)
  | .fin q => .fin (-q)

/-- IEEE addition: NaN propagates, opposite infinities give NaN, an infinity
absorbs any finite value, finite addition is exact. -/
def add : F64 → F64 → F64
  | .nan, _ => .nan
  | _, .nan => .nan
  | .inf s, .inf t => if s = t then .inf s else .nan
  | .inf s, .fin _ => .inf s
  | .fin _, .inf t => .inf t
  | .fin q, .fin r => .fin (q + r)

/-- IEEE subtraction, as addition of the negation. -/
def sub (x y : F64) : F64 :=
  x.add y.neg

/-- IEEE multiplication: NaN propagates, zero times an infinity is NaN,
otherwise infinities obey the sign rule; finite multiplication is exact. -/
def mul : F64 → F64 → F64
  | .nan, _ => .nan
  | _, .nan => .nan
  | .inf s, .inf t => .inf (s = t)
  | .inf s, .fin q => if q = 0 then .nan else .inf (s = decide (0 < q))
  | .fin q, .inf t => if q = 0 then .nan else .inf (t = decide (0 < q))
  | .fin q, .fin r => .fin (q * r)

/-- The smaller of two doubles under the source's normalisation
`if lo <= hi { .. } else { .. }` (so a NaN argument makes the result the
other argument or NaN, exactly as that branch behaves). -/
def minF (x y : F64) : F64 :=
  if x.ieeeLe y then x else y

/-- The larger of two doubles under the source's normalisation. -/
def maxF (x y : F64) : F64 :=
  if x.ieeeLe y then y else x

end F64

/-- Rust enum `ComparisonResult` from `lib.rs`. -/
inductive ComparisonResult where
  | ExactlyEqual : ComparisonResult
  | ApproximatelyEqual : ComparisonResult
  | Unequal : ComparisonResult
deriving DecidableEq, Repr

/-- Rust enum `VectorComparisonResult` from `lib.rs`. -/
inductive VectorComparisonResult where
  | ExactlyEqual : VectorComparisonResult
  | ApproximatelyEqual : VectorComparisonResult
  | DifferentLengths (expected_length actual_length : Nat) : VectorComparisonResult
  | UnequalElements (index_of_first_unequal_element : Nat)
      (expected_value_of_first_unequal_element : F64)
      (actual_value_of_first_unequal_element : F64) : VectorComparisonResult
deriving DecidableEq, Repr

/-- Function `utils::result_from_range_`: normalise the bound order, then test
inclusive containment. -/
def result_from_range_ (lo hi actual : F64) : ComparisonResult :=
  let r : F64 × F64 := if lo.ieeeLe hi then (lo, hi) else (hi, lo)
  if r.1.ieeeLe actual && actual.ieeeLe r.2 then
    ComparisonResult.ApproximatelyEqual
  else
    ComparisonResult.Unequal

/-- Function `utils::compare_approximate_equality_by_margin` (default features, so no
NaN-equality block). -/
def compare_approximate_equality_by_margin
    (expected actual margin_factor : F64) : ComparisonResult :=
  if expected.ieeeEq actual then ComparisonResult.ExactlyEqual
  else if (F64.fin 0).ieeeEq margin_factor then ComparisonResult.Unequal
  else
    let expected_lo := expected.sub margin_factor
    let expected_hi := expected.add margin_factor
    result_from_range_ expected_lo expected_hi actual

/-- Function `utils::compare_approximate_equality_by_multiplier` (default features). -/
def compare_approximate_equality_by_multiplier
    (expected actual multiplier_factor : F64) : ComparisonResult :=
  if expected.ieeeEq actual then ComparisonResult.ExactlyEqual
  else if (F64.fin 0).ieeeEq multiplier_factor then ComparisonResult.Unequal
  else
    let expected_lo := expected.mul ((F64.fin 1).sub multiplier_factor)
    let expected_hi := expected.mul ((F64.fin 1).add multiplier_factor)
    result_from_range_ expected_lo expected_hi actual

/-- Function `utils::compare_approximate_equality_by_zero_margin_or_multiplier`
(default features). -/
def compare_approximate_equality_by_zero_margin_or_multiplier
    (expected actual multiplier_factor margin_factor : F64) : ComparisonResult :=
  if expected.ieeeEq actual then ComparisonResult.ExactlyEqual
  else if (F64.fin 0).ieeeEq expected || (F64.fin 0).ieeeEq actual then
    if (F64.fin 0).ieeeEq margin_factor then ComparisonResult.Unequal
    else
      result_from_range_ (expected.sub margin_factor) (expected.add margin_factor) actual
  else
    if (F64.fin 0).ieeeEq multiplier_factor then ComparisonResult.Unequal
    else
      result_from_range_ (expected.mul ((F64.fin 1).sub multiplier_factor))
        (expected.mul ((F64.fin 1).add multiplier_factor)) actual

/-- The return shape of `traits::ApproximateEqualityEvaluator::evaluate`:
`(comparison_result, margin_factor, multiplier_factor)`.  A trait object
(`&dyn ApproximateEqualityEvaluator`) is modelled as its `evaluate`
function. -/
abbrev EvaluateResult := ComparisonResult × Option F64 × Option F64

/-- A `&dyn traits::ApproximateEqualityEvaluator`, as its method. -/
abbrev ApproximateEqualityEvaluator := F64 → F64 → EvaluateResult

/-- Struct `internal::MarginEvaluator`. -/
structure MarginEvaluator where
  factor : F64

/-- Impl of `ApproximateEqualityEvaluator` for `MarginEvaluator`. -/
def MarginEvaluator.evaluate (self : MarginEvaluator)
    (expected actual : F64) : EvaluateResult :=
  (compare_approximate_equality_by_margin expected actual self.factor,
    some self.factor, none)

/-- Struct `internal::MultiplierEvaluator`. -/
structure MultiplierEvaluator where
  factor : F64

/-- Impl of `ApproximateEqualityEvaluator` for `MultiplierEvaluator`. -/
def MultiplierEvaluator.evaluate (self : MultiplierEvaluator)
    (expected actual : F64) : EvaluateResult :=
  (compare_approximate_equality_by_multiplier expected actual self.factor,
    none, some self.factor)

/-- Struct `internal::ZeroMarginOrMultiplierEvaluator`. -/
structure ZeroMarginOrMultiplierEvaluator where
  multiplier_factor : F64
  zero_margin_factor : F64

/-- Impl of `ApproximateEqualityEvaluator` for `ZeroMarginOrMultiplierEvaluator`. -/
def ZeroMarginOrMultiplierEvaluator.evaluate
    (self : ZeroMarginOrMultiplierEvaluator)
    (expected actual : F64) : EvaluateResult :=
  (compare_approximate_equality_by_zero_margin_or_multiplier expected actual
      self.multiplier_factor self.zero_margin_factor,
    some self.zero_margin_factor, some self.multiplier_factor)

/-- Factory `margin(factor)`, returned as the trait object it builds. -/
def margin (factor : F64) : ApproximateEqualityEvaluator :=
  (MarginEvaluator.mk factor).evaluate

/-- Factory `multiplier(factor)`, returned as the trait object it builds. -/
def multiplier (factor : F64) : ApproximateEqualityEvaluator :=
  (MultiplierEvaluator.mk factor).evaluate

/-- Factory `zero_margin_or_multiplier(multiplier_factor, zero_margin_factor)`,
returned as the trait object it builds. -/
def zero_margin_or_multiplier
    (multiplier_factor zero_margin_factor : F64) : ApproximateEqualityEvaluator :=
  (ZeroMarginOrMultiplierEvaluator.mk multiplier_factor zero_margin_factor).evaluate

/-- Rust `evaluate_scalar_eq_approx`, with the comparands already projected to
doubles (`TestableAsF64` is the identity on `f64`). -/
def evaluate_scalar_eq_approx (expected actual : F64)
    (evaluator : ApproximateEqualityEvaluator) : EvaluateResult :=
  evaluator expected actual

/-- The `for ix in 0..expected_length` loop of `evaluate_vector_eq_approx`,
with the loop state (`ix`, `any_inexact`, the recorded factors) explicit.
The catch-all arm is the loop exit; it is also taken if the two lists fall
out of step, which cannot happen on the equal-length call sites. -/
def evaluate_vector_loop (evaluator : ApproximateEqualityEvaluator) :
    List F64 → List F64 → Nat → Bool → Option F64 → Option F64 →
      VectorComparisonResult × Option F64 × Option F64
  | expected_element :: expected_rest, actual_element :: actual_rest, ix,
      any_inexact, margin_factor, multiplier_factor =>
    match evaluate_scalar_eq_approx expected_element actual_element evaluator with
    | (ComparisonResult.ExactlyEqual, _, _) =>
      evaluate_vector_loop evaluator expected_rest actual_rest (ix + 1)
        any_inexact margin_factor multiplier_factor
    | (ComparisonResult.ApproximatelyEqual, scalar_margin_factor, scalar_multiplier_factor) =>
      if any_inexact then
        evaluate_vector_loop evaluator expected_rest actual_rest (ix + 1)
          any_inexact margin_factor multiplier_factor
      else
        evaluate_vector_loop evaluator expected_rest actual_rest (ix + 1)
          true scalar_margin_factor scalar_multiplier_factor
    | (ComparisonResult.Unequal, scalar_margin_factor, scalar_multiplier_factor) =>
      (VectorComparisonResult.UnequalElements ix expected_element actual_element,
        scalar_margin_factor, scalar_multiplier_factor)
  | _, _, _, any_inexact, margin_factor, multiplier_factor =>
    (if any_inexact then VectorComparisonResult.ApproximatelyEqual
      else VectorComparisonResult.ExactlyEqual,
      margin_factor, multiplier_factor)

/-- Rust `evaluate_vector_eq_approx`, on sequences of doubles. -/
def evaluate_vector_eq_approx (expected actual : List F64)
    (evaluator : ApproximateEqualityEvaluator) :
    VectorComparisonResult × Option F64 × Option F64 :=
  let expected_length := expected.length
  let actual_length := actual.length
  if expected_length ≠ actual_length then
    (VectorComparisonResult.DifferentLengths expected_length actual_length,
      none, none)
  else
    evaluate_vector_loop evaluator expected actual 0 false none none

/-- Element access `xs[i]` of the source's loop, as total access with a dummy
default; every use below is in bounds. -/
def elem (xs : List F64) (i : Nat) : F64 :=
  xs.getD i (F64.fin 0)

/-- Variant of `compare_approximate_equality_by_margin` with the
`debug_assert!(margin_factor >= 0.0)` modelled explicitly: `none` is the
debug-build abort on a factor that is not non-negative (negative or NaN),
`some` is the normal return; the body after the assertion is the function
above. -/
def compare_approximate_equality_by_margin_checked
    (expected actual margin_factor : F64) : Option ComparisonResult :=
  if (F64.fin 0).ieeeLe margin_factor then
    some (compare_approximate_equality_by_margin expected actual margin_factor)
  else
    none

/-- Variant of `compare_approximate_equality_by_multiplier` with the
`debug_assert!(multiplier_factor >= 0.0)` modelled explicitly. -/
def compare_approximate_equality_by_multiplier_checked
    (expected actual multiplier_factor : F64) : Option ComparisonResult :=
  if (F64.fin 0).ieeeLe multiplier_factor then
    some (compare_approximate_equality_by_multiplier expected actual multiplier_factor)
  else
    none

/-- Variant of `compare_approximate_equality_by_zero_margin_or_multiplier`
with its two `debug_assert!`s (on `multiplier_factor` then `margin_factor`)
modelled explicitly. -/
def compare_approximate_equality_by_zero_margin_or_multiplier_checked
    (expected actual multiplier_factor margin_factor : F64) : Option ComparisonResult :=
  if (F64.fin 0).ieeeLe multiplier_factor then
    if (F64.fin 0).ieeeLe margin_factor then
      some (compare_approximate_equality_by_zero_margin_or_multiplier expected actual
        multiplier_factor margin_factor)
    else
      none
  else
    none

example :
    compare_approximate_equality_by_margin (.fin 0) (.fin 0) (.fin 0) =
      ComparisonResult.ExactlyEqual := by
  norm_num [compare_approximate_equality_by_margin, F64.ieeeEq]

example :
    compare_approximate_equality_by_margin (.fin (99/1000)) (.fin (1/10)) (.fin (1/1000)) =
      ComparisonResult.ApproximatelyEqual := by
  norm_num [compare_approximate_equality_by_margin, F64.ieeeEq, F64.ieeeLe, F64.sub,
    F64.add, F64.neg, result_from_range_]

example :
    compare_approximate_equality_by_multiplier (.fin (99/1000)) (.fin (1/10)) (.fin (1/100)) =
      ComparisonResult.Unequal := by
  norm_num [compare_approximate_equality_by_multiplier, F64.ieeeEq, F64.ieeeLe, F64.sub,
    F64.add, F64.neg, F64.mul, result_from_range_]

example :
    compare_approximate_equality_by_zero_margin_or_multiplier
      (.fin 0) (.fin (1/10)) (.fin (1/10)) (.fin (1/10)) =
      ComparisonResult.ApproximatelyEqual := by
  norm_num [compare_approximate_equality_by_zero_margin_or_multiplier, F64.ieeeEq,
    F64.ieeeLe, F64.sub, F64.add, F64.neg, F64.mul, result_from_range_]

example :
    compare_approximate_equality_by_zero_margin_or_multiplier
      (.fin 0) (.fin (1/10)) (.fin (1/10)) (.fin (1/100)) =
      ComparisonResult.Unequal := by
  norm_num [compare_approximate_equality_by_zero_margin_or_multiplier, F64.ieeeEq,
    F64.ieeeLe, F64.sub, F64.add, F64.neg, F64.mul, result_from_range_]

example :
    evaluate_vector_eq_approx
      [.fin 2, .fin (-3), .fin (-4)] [.fin 2, .fin (-3001/1000), .fin (-4)]
      (zero_margin_or_multiplier (.fin (1/10000)) (.fin (1/100))) =
      (VectorComparisonResult.UnequalElements 1 (.fin (-3)) (.fin (-3001/1000)),
        some (.fin (1/100)), some (.fin (1/10000))) := by
  norm_num [evaluate_vector_eq_approx, evaluate_vector_loop, evaluate_scalar_eq_approx,
    zero_margin_or_multiplier, ZeroMarginOrMultiplierEvaluator.evaluate,
    compare_approximate_equality_by_zero_margin_or_multiplier, F64.ieeeEq,
    F64.ieeeLe, F64.sub, F64.add, F64.neg, F64.mul, result_from_range_]

/-- Nothing is IEEE-`<=` NaN. -/
lemma F64.ieeeLe_nan_right (x : F64) : x.ieeeLe F64.nan = false := by
  cases x <;> rfl

/-- NaN is IEEE-`<=` nothing. -/
lemma F64.nan_ieeeLe (x : F64) : F64.nan.ieeeLe x = false := by
  cases x <;> rfl

/-- The containment test of `result_from_range_` never produces
`ExactlyEqual`. -/
lemma result_from_range_ne_ExactlyEqual (lo hi a : F64) :
    result_from_range_ lo hi a ≠ ComparisonResult.ExactlyEqual := by
  simp only [result_from_range_]
  split <;> split <;> simp

/-- The containment test of `result_from_range_` classifies as
`ApproximatelyEqual` exactly the values between the smaller and the larger
bound (the source's order normalisation). -/
lemma result_from_range_eq_approx_iff (lo hi a : F64) :
    result_from_range_ lo hi a = ComparisonResult.ApproximatelyEqual ↔
      ((F64.minF lo hi).ieeeLe a = true ∧ a.ieeeLe (F64.maxF lo hi) = true) := by
  by_cases h : lo.ieeeLe hi = true
  · simp only [result_from_range_, F64.minF, F64.maxF, h, if_true]
    cases hc : lo.ieeeLe a <;> cases hd : a.ieeeLe hi <;> simp [hc, hd]
  · simp only [result_from_range_, F64.minF, F64.maxF, h, if_false]
    cases hc : hi.ieeeLe a <;> cases hd : a.ieeeLe lo <;> simp [hc, hd]

/-- With a non-negative margin, the raw bounds `expected - margin` and
`expected + margin` are already ordered unless one of them is NaN. -/
lemma margin_bounds_ordered (expected m : F64)
    (hm : (F64.fin 0).ieeeLe m = true) :
    (expected.sub m).ieeeLe (expected.add m) = true ∨
      expected.sub m = F64.nan ∨ expected.add m = F64.nan := by
  cases expected with
  | nan => right; left; cases m <;> rfl
  | inf s =>
    cases m with
    | nan => simp [F64.ieeeLe] at hm
    | inf t =>
      have ht : t = true := by simpa [F64.ieeeLe] using hm
      subst ht
      cases s <;> simp [F64.sub, F64.add, F64.neg, F64.ieeeLe]
    | fin q =>
      cases s <;> simp [F64.sub, F64.add, F64.neg, F64.ieeeLe]
  | fin q =>
    cases m with
    | nan => simp [F64.ieeeLe] at hm
    | inf t =>
      have ht : t = true := by simpa [F64.ieeeLe] using hm
      subst ht
      simp [F64.sub, F64.add, F64.neg, F64.ieeeLe]
    | fin r =>
      have hr : (0 : ℚ) ≤ r := by simpa [F64.ieeeLe] using hm
      simp only [F64.sub, F64.add, F64.neg]
      left
      simp only [F64.ieeeLe, decide_eq_true_eq]
      linarith

lemma elem_cons_zero (x : F64) (xs : List F64) : elem (x :: xs) 0 = x := rfl

lemma elem_cons_succ (x : F64) (xs : List F64) (i : Nat) :
    elem (x :: xs) (i + 1) = elem xs i := rfl

/-- Loop exit on empty input: the recorded state is returned unchanged. -/
lemma evaluate_vector_loop_nil (e : ApproximateEqualityEvaluator)
    (ix : Nat) (b : Bool) (mf xf : Option F64) :
    evaluate_vector_loop e [] [] ix b mf xf =
      ((if b then VectorComparisonResult.ApproximatelyEqual
        else VectorComparisonResult.ExactlyEqual), mf, xf) := by
  simp [evaluate_vector_loop]

/-- If the element at `j` is the first (in ascending index order) that the
evaluator classifies `Unequal`, the loop aborts there: it reports index
`ix + j`, that element's two values, and that element's own factors,
regardless of the state recorded so far. -/
lemma evaluate_vector_loop_first_unequal (e : ApproximateEqualityEvaluator) :
    ∀ (xs ys : List F64), xs.length = ys.length →
    ∀ (j : Nat), j < xs.length →
    (∀ i, i < j → (e (elem xs i) (elem ys i)).1 ≠ ComparisonResult.Unequal) →
    (e (elem xs j) (elem ys j)).1 = ComparisonResult.Unequal →
    ∀ (ix : Nat) (b : Bool) (mf xf : Option F64),
      evaluate_vector_loop e xs ys ix b mf xf =
        (VectorComparisonResult.UnequalElements (ix + j) (elem xs j) (elem ys j),
          (e (elem xs j) (elem ys j)).2.1, (e (elem xs j) (elem ys j)).2.2) := by
  intro xs
  induction xs with
  | nil =>
    intro ys _ j hj
    exact absurd hj (by simp)
  | cons x xs ih =>
    intro ys hlen j hj hmin hU ix b mf xf
    cases ys with
    | nil => simp at hlen
    | cons y ys =>
      have hlen' : xs.length = ys.length := by simpa using hlen
      rcases hexy : e x y with ⟨r, smf, sxf⟩
      cases j with
      | zero =>
        rw [elem_cons_zero, elem_cons_zero] at hU ⊢
        rw [hexy] at hU ⊢
        have hr : r = ComparisonResult.Unequal := by simpa using hU
        subst hr
        simp [evaluate_vector_loop, evaluate_scalar_eq_approx, hexy]
      | succ j' =>
        have hmin0 := hmin 0 (Nat.succ_pos j')
        rw [elem_cons_zero, elem_cons_zero, hexy] at hmin0
        have hrec := ih ys hlen' j' (by simpa using hj)
          (fun i hi => by
            have := hmin (i + 1) (by omega)
            rwa [elem_cons_succ, elem_cons_succ] at this)
          (by rwa [elem_cons_succ, elem_cons_succ] at hU)
        rw [elem_cons_succ, elem_cons_succ]
        cases r with
        | Unequal => exact absurd rfl hmin0
        | ExactlyEqual =>
          rw [show evaluate_vector_loop e (x :: xs) (y :: ys) ix b mf xf =
              evaluate_vector_loop e xs ys (ix + 1) b mf xf from by
            simp [evaluate_vector_loop, evaluate_scalar_eq_approx, hexy]]
          rw [hrec (ix + 1) b mf xf, show ix + 1 + j' = ix + (j' + 1) from by omega]
        | ApproximatelyEqual =>
          cases b with
          | false =>
            rw [show evaluate_vector_loop e (x :: xs) (y :: ys) ix false mf xf =
                evaluate_vector_loop e xs ys (ix + 1) true smf sxf from by
              simp [evaluate_vector_loop, evaluate_scalar_eq_approx, hexy]]
            rw [hrec (ix + 1) true smf sxf,
              show ix + 1 + j' = ix + (j' + 1) from by omega]
          | true =>
            rw [show evaluate_vector_loop e (x :: xs) (y :: ys) ix true mf xf =
                evaluate_vector_loop e xs ys (ix + 1) true mf xf from by
              simp [evaluate_vector_loop, evaluate_scalar_eq_approx, hexy]]
            rw [hrec (ix + 1) true mf xf,
              show ix + 1 + j' = ix + (j' + 1) from by omega]

/-- When the raw bounds are ordered-or-NaN, approximate classification is
plain two-sided containment between the raw bounds. -/
lemma result_from_range_iff_of_ordered (lo hi a : F64)
    (h : lo.ieeeLe hi = true ∨ lo = F64.nan ∨ hi = F64.nan) :
    result_from_range_ lo hi a = ComparisonResult.ApproximatelyEqual ↔
      (lo.ieeeLe a = true ∧ a.ieeeLe hi = true) := by
  rcases h with h | h | h
  · simp [result_from_range_, h]
  · subst h
    simp [result_from_range_, F64.nan_ieeeLe, F64.ieeeLe_nan_right]
  · subst h
    simp [result_from_range_, F64.nan_ieeeLe, F64.ieeeLe_nan_right]

/-- If every element is classified `ExactlyEqual`, the loop falls through and
returns the state it was entered with. -/
lemma evaluate_vector_loop_all_exact (e : ApproximateEqualityEvaluator) :
    ∀ (xs ys : List F64), xs.length = ys.length →
    (∀ i, i < xs.length →
      (e (elem xs i) (elem ys i)).1 = ComparisonResult.ExactlyEqual) →
    ∀ (ix : Nat) (b : Bool) (mf xf : Option F64),
      evaluate_vector_loop e xs ys ix b mf xf =
        ((if b then VectorComparisonResult.ApproximatelyEqual
          else VectorComparisonResult.ExactlyEqual), mf, xf) := by
  intro xs
  induction xs with
  | nil =>
    intro ys hlen _ ix b mf xf
    cases ys with
    | nil => exact evaluate_vector_loop_nil e ix b mf xf
    | cons y ys => simp at hlen
  | cons x xs ih =>
    intro ys hlen hall ix b mf xf
    cases ys with
    | nil => simp at hlen
    | cons y ys =>
      have hlen' : xs.length = ys.length := by simpa using hlen
      rcases hexy : e x y with ⟨r, smf, sxf⟩
      have h0 := hall 0 (Nat.succ_pos _)
      rw [elem_cons_zero, elem_cons_zero, hexy] at h0
      have hr : r = ComparisonResult.ExactlyEqual := by simpa using h0
      subst hr
      rw [show evaluate_vector_loop e (x :: xs) (y :: ys) ix b mf xf =
          evaluate_vector_loop e xs ys (ix + 1) b mf xf from by
        simp [evaluate_vector_loop, evaluate_scalar_eq_approx, hexy]]
      exact ih ys hlen'
        (fun i hi => by
          have := hall (i + 1) (by simp only [List.length_cons]; omega)
          rwa [elem_cons_succ, elem_cons_succ] at this)
        (ix + 1) b mf xf

/-- Once `any_inexact` is set, the recorded factors are sticky: if no later
element is `Unequal`, the loop ends `ApproximatelyEqual` with exactly the
factors recorded when the flag was set. -/
lemma evaluate_vector_loop_sticky (e : ApproximateEqualityEvaluator) :
    ∀ (xs ys : List F64), xs.length = ys.length →
    (∀ i, i < xs.length →
      (e (elem xs i) (elem ys i)).1 ≠ ComparisonResult.Unequal) →
    ∀ (ix : Nat) (mf xf : Option F64),
      evaluate_vector_loop e xs ys ix true mf xf =
        (VectorComparisonResult.ApproximatelyEqual, mf, xf) := by
  intro xs
  induction xs with
  | nil =>
    intro ys hlen _ ix mf xf
    cases ys with
    | nil => exact evaluate_vector_loop_nil e ix true mf xf
    | cons y ys => simp at hlen
  | cons x xs ih =>
    intro ys hlen hnou ix mf xf
    cases ys with
    | nil => simp at hlen
    | cons y ys =>
      have hlen' : xs.length = ys.length := by simpa using hlen
      rcases hexy : e x y with ⟨r, smf, sxf⟩
      have h0 := hnou 0 (Nat.succ_pos _)
      rw [elem_cons_zero, elem_cons_zero, hexy] at h0
      have htail : ∀ i, i < xs.length →
          (e (elem xs i) (elem ys i)).1 ≠ ComparisonResult.Unequal :=
        fun i hi => by
          have := hnou (i + 1) (by simp only [List.length_cons]; omega)
          rwa [elem_cons_succ, elem_cons_succ] at this
      cases r with
      | Unequal => exact (h0 rfl).elim
      | ExactlyEqual =>
        rw [show evaluate_vector_loop e (x :: xs) (y :: ys) ix true mf xf =
            evaluate_vector_loop e xs ys (ix + 1) true mf xf from by
          simp [evaluate_vector_loop, evaluate_scalar_eq_approx, hexy]]
        exact ih ys hlen' htail (ix + 1) mf xf
      | ApproximatelyEqual =>
        rw [show evaluate_vector_loop e (x :: xs) (y :: ys) ix true mf xf =
            evaluate_vector_loop e xs ys (ix + 1) true mf xf from by
          simp [evaluate_vector_loop, evaluate_scalar_eq_approx, hexy]]
        exact ih ys hlen' htail (ix + 1) mf xf

/-- Entered with `any_inexact` clear, when no element is `Unequal`, the
elements before `j` are exact and `j` is `ApproximatelyEqual`, the loop ends
`ApproximatelyEqual` carrying element `j`'s factors (the first inexact
element's factors, which later inexact elements do not overwrite). -/
lemma evaluate_vector_loop_first_approx (e : ApproximateEqualityEvaluator) :
    ∀ (xs ys : List F64), xs.length = ys.length →
    (∀ i, i < xs.length →
      (e (elem xs i) (elem ys i)).1 ≠ ComparisonResult.Unequal) →
    ∀ (j : Nat), j < xs.length →
    (∀ i, i < j → (e (elem xs i) (elem ys i)).1 = ComparisonResult.ExactlyEqual) →
    (e (elem xs j) (elem ys j)).1 = ComparisonResult.ApproximatelyEqual →
    ∀ (ix : Nat) (mf xf : Option F64),
      evaluate_vector_loop e xs ys ix false mf xf =
        (VectorComparisonResult.ApproximatelyEqual,
          (e (elem xs j) (elem ys j)).2.1, (e (elem xs j) (elem ys j)).2.2) := by
  intro xs
  induction xs with
  | nil =>
    intro ys _ _ j hj
    exact absurd hj (by simp)
  | cons x xs ih =>
    intro ys hlen hnou j hj hbefore hj_approx ix mf xf
    cases ys with
    | nil => simp at hlen
    | cons y ys =>
      have hlen' : xs.length = ys.length := by simpa using hlen
      have htail : ∀ i, i < xs.length →
          (e (elem xs i) (elem ys i)).1 ≠ ComparisonResult.Unequal :=
        fun i hi => by
          have := hnou (i + 1) (by simp only [List.length_cons]; omega)
          rwa [elem_cons_succ, elem_cons_succ] at this
      rcases hexy : e x y with ⟨r, smf, sxf⟩
      cases j with
      | zero =>
        rw [elem_cons_zero, elem_cons_zero] at hj_approx ⊢
        rw [hexy] at hj_approx ⊢
        have hr : r = ComparisonResult.ApproximatelyEqual := by simpa using hj_approx
        subst hr
        rw [show evaluate_vector_loop e (x :: xs) (y :: ys) ix false mf xf =
            evaluate_vector_loop e xs ys (ix + 1) true smf sxf from by
          simp [evaluate_vector_loop, evaluate_scalar_eq_approx, hexy]]
        exact evaluate_vector_loop_sticky e xs ys hlen' htail (ix + 1) smf sxf
      | succ j' =>
        have h0 := hbefore 0 (Nat.succ_pos _)
        rw [elem_cons_zero, elem_cons_zero, hexy] at h0
        have hr : r = ComparisonResult.ExactlyEqual := by simpa using h0
        subst hr
        rw [elem_cons_succ, elem_cons_succ]
        rw [show evaluate_vector_loop e (x :: xs) (y :: ys) ix false mf xf =
            evaluate_vector_loop e xs ys (ix + 1) false mf xf from by
          simp [evaluate_vector_loop, evaluate_scalar_eq_approx, hexy]]
        exact ih ys hlen' htail j' (by simpa using hj)
          (fun i hi => by
            have := hbefore (i + 1) (by omega)
            rwa [elem_cons_succ, elem_cons_succ] at this)
          (by rwa [elem_cons_succ, elem_cons_succ] at hj_approx)
          (ix + 1) mf xf

/-- Claim C3: whenever the two sequences have different lengths,
`evaluate_vector_eq_approx` returns `DifferentLengths` carrying both lengths
and no factors, for every evaluator and regardless of element values. -/
theorem evaluate_vector_eq_approx_different_lengths
    (evaluator : ApproximateEqualityEvaluator) (expected actual : List F64)
    (hlen : expected.length ≠ actual.length) :
    evaluate_vector_eq_approx expected actual evaluator =
      (VectorComparisonResult.DifferentLengths expected.length actual.length,
        none, none) := by
  simp [evaluate_vector_eq_approx, hlen]

/-- Witness for C3: the spec's example `[-2.0,-3.0]` versus `[0.0]` yields
`DifferentLengths{expected_length: 2, actual_length: 1}` with no factors. -/
theorem evaluate_vector_eq_approx_different_lengths_witness :
    evaluate_vector_eq_approx [F64.fin (-2), F64.fin (-3)] [F64.fin 0]
        (multiplier (F64.fin 37)) =
      (VectorComparisonResult.DifferentLengths 2 1, none, none) :=
  evaluate_vector_eq_approx_different_lengths (multiplier (F64.fin 37))
    [F64.fin (-2), F64.fin (-3)] [F64.fin 0] (by norm_num)

/-- Claim C4: with a non-negative margin factor (NaN-equality mode absent,
the default), the margin primitive returns `ExactlyEqual` exactly on IEEE
equality, returns `Unequal` whenever the comparands differ and the factor is
IEEE-zero, and otherwise classifies `ApproximatelyEqual` exactly the
`actual` values inside the closed interval
`[expected - margin_factor, expected + margin_factor]`. -/
theorem compare_approximate_equality_by_margin_spec
    (expected actual margin_factor : F64)
    (hm : (F64.fin 0).ieeeLe margin_factor = true) :
    (compare_approximate_equality_by_margin expected actual margin_factor =
        ComparisonResult.ExactlyEqual ↔ expected.ieeeEq actual = true)
    ∧ (expected.ieeeEq actual = false →
        (F64.fin 0).ieeeEq margin_factor = true →
        compare_approximate_equality_by_margin expected actual margin_factor =
          ComparisonResult.Unequal)
    ∧ (expected.ieeeEq actual = false →
        (F64.fin 0).ieeeEq margin_factor = false →
        (compare_approximate_equality_by_margin expected actual margin_factor =
            ComparisonResult.ApproximatelyEqual ↔
          ((expected.sub margin_factor).ieeeLe actual = true ∧
            actual.ieeeLe (expected.add margin_factor) = true))) := by
  refine ⟨?_, ?_, ?_⟩
  · by_cases heq : expected.ieeeEq actual = true
    · simp [compare_approximate_equality_by_margin, heq]
    · have hne : expected.ieeeEq actual = false := by simpa using heq
      rw [hne]
      simp only [Bool.false_eq_true, iff_false]
      intro h
      simp only [compare_approximate_equality_by_margin, hne, Bool.false_eq_true,
        if_false] at h
      split at h
      · exact ComparisonResult.noConfusion h
      · exact result_from_range_ne_ExactlyEqual _ _ _ h
  · intro hne h0
    simp [compare_approximate_equality_by_margin, hne, h0]
  · intro hne h0
    simp only [compare_approximate_equality_by_margin, hne, h0, Bool.false_eq_true,
      if_false]
    exact result_from_range_iff_of_ordered _ _ _
      (margin_bounds_ordered expected margin_factor hm)

/-- Witness for C4, at `expected = 0.099`, `actual = 0.1`,
`margin_factor = 0.001` (an inexact pair inside the margin interval). -/
theorem compare_approximate_equality_by_margin_spec_witness :
    compare_approximate_equality_by_margin (F64.fin (99/1000)) (F64.fin (1/10))
        (F64.fin (1/1000)) = ComparisonResult.ApproximatelyEqual ∧
      compare_approximate_equality_by_margin (F64.fin (99/1000)) (F64.fin (1/10))
        (F64.fin 0) = ComparisonResult.Unequal := by
  constructor
  · exact ((compare_approximate_equality_by_margin_spec (F64.fin (99/1000))
        (F64.fin (1/10)) (F64.fin (1/1000)) (by norm_num [F64.ieeeLe])).2.2
      (by norm_num [F64.ieeeEq]) (by norm_num [F64.ieeeEq])).mpr
      (by norm_num [F64.ieeeLe, F64.sub, F64.add, F64.neg])
  · exact (compare_approximate_equality_by_margin_spec (F64.fin (99/1000))
        (F64.fin (1/10)) (F64.fin 0) (by norm_num [F64.ieeeLe])).2.1
      (by norm_num [F64.ieeeEq]) (by norm_num [F64.ieeeEq])

/-- Claim C5: for unequal comparands and a positive multiplier factor, the
multiplier primitive classifies `ApproximatelyEqual` exactly the `actual`
values between the smaller and the larger of
`expected * (1 - multiplier_factor)` and `expected * (1 + multiplier_factor)`
(inclusive at both ends), so a negative `expected`, whose naive bounds are
swapped, is classified correctly. -/
theorem compare_approximate_equality_by_multiplier_spec
    (expected actual multiplier_factor : F64)
    (hne : expected.ieeeEq actual = false)
    (hm : (F64.fin 0).ieeeLt multiplier_factor = true) :
    compare_approximate_equality_by_multiplier expected actual multiplier_factor =
        ComparisonResult.ApproximatelyEqual ↔
      ((F64.minF (expected.mul ((F64.fin 1).sub multiplier_factor))
          (expected.mul ((F64.fin 1).add multiplier_factor))).ieeeLe actual = true ∧
        actual.ieeeLe (F64.maxF (expected.mul ((F64.fin 1).sub multiplier_factor))
          (expected.mul ((F64.fin 1).add multiplier_factor))) = true) := by
  have h0 : (F64.fin 0).ieeeEq multiplier_factor = false := by
    cases multiplier_factor with
    | nan => rfl
    | inf t => rfl
    | fin q =>
      have hq : (0 : ℚ) < q := by simpa [F64.ieeeLt] using hm
      simp [F64.ieeeEq, hq.ne]
  simp only [compare_approximate_equality_by_multiplier, hne, h0, Bool.false_eq_true,
    if_false]
  exact result_from_range_eq_approx_iff _ _ _

/-- Witness for C5, at the negative expected value `-3.0` with
`actual = -3.0001` and `multiplier_factor = 0.001`: the naive bounds are
swapped and the value is classified `ApproximatelyEqual`. -/
theorem compare_approximate_equality_by_multiplier_spec_witness :
    compare_approximate_equality_by_multiplier (F64.fin (-3))
        (F64.fin (-30001/10000)) (F64.fin (1/1000)) =
      ComparisonResult.ApproximatelyEqual :=
  (compare_approximate_equality_by_multiplier_spec (F64.fin (-3))
      (F64.fin (-30001/10000)) (F64.fin (1/1000))
      (by norm_num [F64.ieeeEq]) (by norm_num [F64.ieeeLt])).mpr
    (by norm_num [F64.minF, F64.maxF, F64.ieeeLe, F64.sub, F64.add, F64.neg, F64.mul])

/-- Claim C10: with `expected = 0.0`, any `actual` not IEEE-equal to zero,
and any non-negative multiplier factor, the multiplier primitive returns
`Unequal`: the interval collapses to the point zero (or to a NaN-bounded
empty range for an infinite factor). -/
theorem compare_approximate_equality_by_multiplier_zero_expected
    (actual multiplier_factor : F64)
    (hne : (F64.fin 0).ieeeEq actual = false)
    (hm : (F64.fin 0).ieeeLe multiplier_factor = true) :
    compare_approximate_equality_by_multiplier (F64.fin 0) actual multiplier_factor =
      ComparisonResult.Unequal := by
  by_cases h0 : (F64.fin 0).ieeeEq multiplier_factor = true
  · simp [compare_approximate_equality_by_multiplier, hne, h0]
  · have h0' : (F64.fin 0).ieeeEq multiplier_factor = false := by simpa using h0
    simp only [compare_approximate_equality_by_multiplier, hne, h0', Bool.false_eq_true,
      if_false]
    cases multiplier_factor with
    | nan => simp [F64.ieeeLe] at hm
    | inf t =>
      have ht : t = true := by simpa [F64.ieeeLe] using hm
      subst ht
      simp [F64.sub, F64.add, F64.neg, F64.mul, result_from_range_,
        F64.nan_ieeeLe, F64.ieeeLe_nan_right]
    | fin q =>
      have hq : ¬((0 : ℚ) = q) := by simpa [F64.ieeeEq] using h0'
      simp only [F64.sub, F64.add, F64.neg, F64.mul]
      norm_num
      cases actual with
      | nan => simp [result_from_range_, F64.ieeeLe_nan_right, F64.nan_ieeeLe]
      | inf t => cases t <;> simp [result_from_range_, F64.ieeeLe]
      | fin a =>
        have ha : ¬((0 : ℚ) = a) := by simpa [F64.ieeeEq] using hne
        have hcond : ¬((0 : ℚ) ≤ a ∧ a ≤ 0) := fun ⟨h1, h2⟩ => ha (le_antisymm h1 h2)
        simp [result_from_range_, F64.ieeeLe, hcond]

/-- Witness for C10: a huge factor still cannot make a nonzero `actual`
approximately equal to an expected zero. -/
theorem compare_approximate_equality_by_multiplier_zero_expected_witness :
    compare_approximate_equality_by_multiplier (F64.fin 0) (F64.fin 1000000000)
        (F64.fin 1000000) = ComparisonResult.Unequal :=
  compare_approximate_equality_by_multiplier_zero_expected (F64.fin 1000000000)
    (F64.fin 1000000) (by norm_num [F64.ieeeEq]) (by norm_num [F64.ieeeLe])

/-- Claim C1: on equal-length sequences, if the element at index `j` is the
first (lowest index) the evaluator classifies `Unequal`, then
`evaluate_vector_eq_approx` stops there and returns `UnequalElements` with
that index, that element's expected and actual values, and the factors the
evaluator returned for that very element (not factors recorded from earlier
approximately-equal elements). -/
theorem evaluate_vector_eq_approx_first_unequal
    (evaluator : ApproximateEqualityEvaluator) (expected actual : List F64)
    (hlen : expected.length = actual.length) (j : Nat) (hj : j < expected.length)
    (hmin : ∀ i, i < j →
      (evaluator (elem expected i) (elem actual i)).1 ≠ ComparisonResult.Unequal)
    (hU : (evaluator (elem expected j) (elem actual j)).1 =
      ComparisonResult.Unequal) :
    evaluate_vector_eq_approx expected actual evaluator =
      (VectorComparisonResult.UnequalElements j (elem expected j) (elem actual j),
        (evaluator (elem expected j) (elem actual j)).2.1,
        (evaluator (elem expected j) (elem actual j)).2.2) := by
  have h := evaluate_vector_loop_first_unequal evaluator expected actual hlen
    j hj hmin hU 0 false none none
  simp only [Nat.zero_add] at h
  simp [evaluate_vector_eq_approx, hlen, h]

/-- Witness for C1: the spec's example
`evaluate_sequence([2.0,-3.0,-4.0], [2.0,-3.001,-4.0],
zero_margin_or_multiplier(0.0001, 0.01))` yields `UnequalElements` at index 1
with values `-3.0` / `-3.001` and factors `margin_factor = Some 0.01`,
`multiplier_factor = Some 0.0001`. -/
theorem evaluate_vector_eq_approx_first_unequal_witness :
    evaluate_vector_eq_approx [F64.fin 2, F64.fin (-3), F64.fin (-4)]
        [F64.fin 2, F64.fin (-3001/1000), F64.fin (-4)]
        (zero_margin_or_multiplier (F64.fin (1/10000)) (F64.fin (1/100))) =
      (VectorComparisonResult.UnequalElements 1 (F64.fin (-3)) (F64.fin (-3001/1000)),
        some (F64.fin (1/100)), some (F64.fin (1/10000))) := by
  have h := evaluate_vector_eq_approx_first_unequal
    (zero_margin_or_multiplier (F64.fin (1/10000)) (F64.fin (1/100)))
    [F64.fin 2, F64.fin (-3), F64.fin (-4)]
    [F64.fin 2, F64.fin (-3001/1000), F64.fin (-4)]
    rfl 1 (by norm_num)
    (fun i hi => by
      have hi0 : i = 0 := Nat.lt_one_iff.mp hi
      subst hi0
      norm_num [elem, zero_margin_or_multiplier,
        ZeroMarginOrMultiplierEvaluator.evaluate,
        compare_approximate_equality_by_zero_margin_or_multiplier, F64.ieeeEq]
      decide)
    (by
      norm_num [elem, zero_margin_or_multiplier,
        ZeroMarginOrMultiplierEvaluator.evaluate,
        compare_approximate_equality_by_zero_margin_or_multiplier, F64.ieeeEq,
        F64.ieeeLe, F64.sub, F64.add, F64.neg, F64.mul, result_from_range_])
  simpa [elem, zero_margin_or_multiplier,
    ZeroMarginOrMultiplierEvaluator.evaluate] using h

/-- Claim C2: on equal-length sequences where no element is `Unequal`,
`evaluate_vector_eq_approx` returns `ExactlyEqual` with factors
`(none, none)` when every element is `ExactlyEqual` (vacuously for two empty
sequences), and returns `ApproximatelyEqual` carrying the factors of the
first (lowest-index) approximately-equal element, which later
approximately-equal elements do not overwrite. -/
theorem evaluate_vector_eq_approx_no_unequal
    (evaluator : ApproximateEqualityEvaluator) (expected actual : List F64)
    (hlen : expected.length = actual.length)
    (hnou : ∀ i, i < expected.length →
      (evaluator (elem expected i) (elem actual i)).1 ≠ ComparisonResult.Unequal) :
    ((∀ i, i < expected.length →
        (evaluator (elem expected i) (elem actual i)).1 =
          ComparisonResult.ExactlyEqual) →
      evaluate_vector_eq_approx expected actual evaluator =
        (VectorComparisonResult.ExactlyEqual, none, none))
    ∧ (∀ j, j < expected.length →
        (∀ i, i < j → (evaluator (elem expected i) (elem actual i)).1 =
          ComparisonResult.ExactlyEqual) →
        (evaluator (elem expected j) (elem actual j)).1 =
          ComparisonResult.ApproximatelyEqual →
        evaluate_vector_eq_approx expected actual evaluator =
          (VectorComparisonResult.ApproximatelyEqual,
            (evaluator (elem expected j) (elem actual j)).2.1,
            (evaluator (elem expected j) (elem actual j)).2.2)) := by
  constructor
  · intro hall
    have h := evaluate_vector_loop_all_exact evaluator expected actual hlen hall
      0 false none none
    simp only [if_false, Bool.false_eq_true] at h
    simp [evaluate_vector_eq_approx, hlen, h]
  · intro j hj hbefore happrox
    have h := evaluate_vector_loop_first_approx evaluator expected actual hlen hnou
      j hj hbefore happrox 0 none none
    simp [evaluate_vector_eq_approx, hlen, h]

/-- Witness for C2: two empty sequences give `ExactlyEqual` with no factors
(the spec's empty-sequence example), and a singleton approximately-equal
pair gives `ApproximatelyEqual` with that element's factors. -/
theorem evaluate_vector_eq_approx_no_unequal_witness :
    evaluate_vector_eq_approx [] [] (margin (F64.fin 0)) =
      (VectorComparisonResult.ExactlyEqual, none, none)
    ∧ evaluate_vector_eq_approx [F64.fin 1] [F64.fin 2] (margin (F64.fin 5)) =
      (VectorComparisonResult.ApproximatelyEqual, some (F64.fin 5), none) := by
  constructor
  · exact (evaluate_vector_eq_approx_no_unequal (margin (F64.fin 0)) [] [] rfl
      (fun i hi => absurd hi (by simp))).1 (fun i hi => absurd hi (by simp))
  · have h := (evaluate_vector_eq_approx_no_unequal (margin (F64.fin 5))
      [F64.fin 1] [F64.fin 2] rfl
      (fun i hi => by
        have hi0 : i = 0 := Nat.lt_one_iff.mp hi
        subst hi0
        norm_num [elem, margin, MarginEvaluator.evaluate,
          compare_approximate_equality_by_margin, F64.ieeeEq, F64.ieeeLe,
          F64.sub, F64.add, F64.neg, result_from_range_]
        decide)).2
      0 (by norm_num) (fun i hi => absurd hi (Nat.not_lt_zero i))
      (by
        norm_num [elem, margin, MarginEvaluator.evaluate,
          compare_approximate_equality_by_margin, F64.ieeeEq, F64.ieeeLe,
          F64.sub, F64.add, F64.neg, result_from_range_])
    simpa [elem, margin, MarginEvaluator.evaluate] using h

/-- Claim C6: for unequal comparands and non-negative factors, the hybrid
primitive coincides with the margin primitive (using `margin_factor`) when
either comparand is IEEE-zero, and with the multiplier primitive (using
`multiplier_factor`) otherwise. -/
theorem compare_approximate_equality_by_zero_margin_or_multiplier_spec
    (expected actual multiplier_factor margin_factor : F64)
    (hne : expected.ieeeEq actual = false)
    (hmult : (F64.fin 0).ieeeLe multiplier_factor = true)
    (hmarg : (F64.fin 0).ieeeLe margin_factor = true) :
    compare_approximate_equality_by_zero_margin_or_multiplier expected actual
        multiplier_factor margin_factor =
      if ((F64.fin 0).ieeeEq expected || (F64.fin 0).ieeeEq actual) = true then
        compare_approximate_equality_by_margin expected actual margin_factor
      else
        compare_approximate_equality_by_multiplier expected actual
          multiplier_factor := by
  simp only [compare_approximate_equality_by_zero_margin_or_multiplier,
    compare_approximate_equality_by_margin,
    compare_approximate_equality_by_multiplier, hne, Bool.false_eq_true, if_false]

/-- Witness for C6: the spec's example
`by_zero_margin_or_multiplier(0.0, 0.1, mult=0.1, margin=0.1)` is
`ApproximatelyEqual` and the same call with `margin=0.01` is `Unequal`
(zero-adjacent fallback to the margin rule). -/
theorem compare_approximate_equality_by_zero_margin_or_multiplier_spec_witness :
    compare_approximate_equality_by_zero_margin_or_multiplier (F64.fin 0)
        (F64.fin (1/10)) (F64.fin (1/10)) (F64.fin (1/10)) =
      ComparisonResult.ApproximatelyEqual
    ∧ compare_approximate_equality_by_zero_margin_or_multiplier (F64.fin 0)
        (F64.fin (1/10)) (F64.fin (1/10)) (F64.fin (1/100)) =
      ComparisonResult.Unequal := by
  constructor
  · rw [compare_approximate_equality_by_zero_margin_or_multiplier_spec (F64.fin 0)
      (F64.fin (1/10)) (F64.fin (1/10)) (F64.fin (1/10))
      (by norm_num [F64.ieeeEq]) (by norm_num [F64.ieeeLe]) (by norm_num [F64.ieeeLe])]
    norm_num [F64.ieeeEq, compare_approximate_equality_by_margin, F64.ieeeLe,
      F64.sub, F64.add, F64.neg, result_from_range_]
  · rw [compare_approximate_equality_by_zero_margin_or_multiplier_spec (F64.fin 0)
      (F64.fin (1/10)) (F64.fin (1/10)) (F64.fin (1/100))
      (by norm_num [F64.ieeeEq]) (by norm_num [F64.ieeeLe]) (by norm_num [F64.ieeeLe])]
    norm_num [F64.ieeeEq, compare_approximate_equality_by_margin, F64.ieeeLe,
      F64.sub, F64.add, F64.neg, result_from_range_]

/-- Counterexample to claim C7: at the spec's quoted inputs the two orders
agree — `by_multiplier(1.0, 1.001, 0.001)` and
`by_multiplier(1.001, 1.0, 0.001)` are both `ApproximatelyEqual` (the first
because `1.001` sits exactly on the inclusive upper bound
`1.0 * (1 + 0.001)`), so the claimed inequality at these inputs is false. -/
theorem compare_by_multiplier_spec_inputs_agree :
    compare_approximate_equality_by_multiplier (F64.fin 1) (F64.fin (1001/1000))
        (F64.fin (1/1000)) =
      compare_approximate_equality_by_multiplier (F64.fin (1001/1000)) (F64.fin 1)
        (F64.fin (1/1000)) := by
  have h1 : compare_approximate_equality_by_multiplier (F64.fin 1)
      (F64.fin (1001/1000)) (F64.fin (1/1000)) =
      ComparisonResult.ApproximatelyEqual := by
    norm_num [compare_approximate_equality_by_multiplier, F64.ieeeEq, F64.ieeeLe,
      F64.sub, F64.add, F64.neg, F64.mul, result_from_range_]
  have h2 : compare_approximate_equality_by_multiplier (F64.fin (1001/1000))
      (F64.fin 1) (F64.fin (1/1000)) = ComparisonResult.ApproximatelyEqual := by
    norm_num [compare_approximate_equality_by_multiplier, F64.ieeeEq, F64.ieeeLe,
      F64.sub, F64.add, F64.neg, F64.mul, result_from_range_]
  rw [h1, h2]

/-- Amended claim C7: the multiplier-strategy classification is genuinely
asymmetric in its two comparands — the interval is centred on `expected` —
but at inputs other than the spec's quoted ones, e.g.
`by_multiplier(1.0, 2.0, 0.6) = Unequal` while
`by_multiplier(2.0, 1.0, 0.6) = ApproximatelyEqual`. -/
theorem compare_by_multiplier_not_symmetric :
    compare_approximate_equality_by_multiplier (F64.fin 1) (F64.fin 2)
        (F64.fin (3/5)) = ComparisonResult.Unequal
    ∧ compare_approximate_equality_by_multiplier (F64.fin 2) (F64.fin 1)
        (F64.fin (3/5)) = ComparisonResult.ApproximatelyEqual
    ∧ compare_approximate_equality_by_multiplier (F64.fin 1) (F64.fin 2)
        (F64.fin (3/5)) ≠
      compare_approximate_equality_by_multiplier (F64.fin 2) (F64.fin 1)
        (F64.fin (3/5)) := by
  have h1 : compare_approximate_equality_by_multiplier (F64.fin 1) (F64.fin 2)
      (F64.fin (3/5)) = ComparisonResult.Unequal := by
    norm_num [compare_approximate_equality_by_multiplier, F64.ieeeEq, F64.ieeeLe,
      F64.sub, F64.add, F64.neg, F64.mul, result_from_range_]
  have h2 : compare_approximate_equality_by_multiplier (F64.fin 2) (F64.fin 1)
      (F64.fin (3/5)) = ComparisonResult.ApproximatelyEqual := by
    norm_num [compare_approximate_equality_by_multiplier, F64.ieeeEq, F64.ieeeLe,
      F64.sub, F64.add, F64.neg, F64.mul, result_from_range_]
  exact ⟨h1, h2, by rw [h1, h2]; exact fun h => ComparisonResult.noConfusion h⟩

/-- Claim C8: for every pair of inputs, the evaluator built by `margin(f)`
reports factors `(Some f, None)`, the one built by `multiplier(f)` reports
`(None, Some f)`, and the one built by
`zero_margin_or_multiplier(multiplier_factor, zero_margin_factor)` reports
`(Some zero_margin_factor, Some multiplier_factor)`, independent of the
comparison outcome. -/
theorem evaluator_factor_reporting (x y f mf zf : F64) :
    (margin f x y).2 = (some f, none)
    ∧ (multiplier f x y).2 = (none, some f)
    ∧ (zero_margin_or_multiplier mf zf x y).2 = (some zf, some mf) :=
  ⟨rfl, rfl, rfl⟩

/-- Claim C9: with non-negative factors, the three primitives never hit their
debug assertion (the only panic point) and return a `ComparisonResult` for
every pair of comparands, including NaN and the infinities. -/
theorem comparison_primitives_total
    (expected actual multiplier_factor margin_factor : F64)
    (hmarg : (F64.fin 0).ieeeLe margin_factor = true)
    (hmult : (F64.fin 0).ieeeLe multiplier_factor = true) :
    compare_approximate_equality_by_margin_checked expected actual margin_factor =
        some (compare_approximate_equality_by_margin expected actual margin_factor)
    ∧ compare_approximate_equality_by_multiplier_checked expected actual
          multiplier_factor =
        some (compare_approximate_equality_by_multiplier expected actual
          multiplier_factor)
    ∧ compare_approximate_equality_by_zero_margin_or_multiplier_checked expected
          actual multiplier_factor margin_factor =
        some (compare_approximate_equality_by_zero_margin_or_multiplier expected
          actual multiplier_factor margin_factor) := by
  refine ⟨?_, ?_, ?_⟩ <;>
    simp [compare_approximate_equality_by_margin_checked,
      compare_approximate_equality_by_multiplier_checked,
      compare_approximate_equality_by_zero_margin_or_multiplier_checked,
      hmarg, hmult]

/-- Witness for C9, on non-finite comparands (NaN versus positive infinity)
with zero factors: all three checked primitives return normally. -/
theorem comparison_primitives_total_witness :
    compare_approximate_equality_by_margin_checked F64.nan (F64.inf true)
        (F64.fin 0) = some ComparisonResult.Unequal
    ∧ compare_approximate_equality_by_multiplier_checked F64.nan (F64.inf true)
        (F64.fin 0) = some ComparisonResult.Unequal
    ∧ compare_approximate_equality_by_zero_margin_or_multiplier_checked F64.nan
        (F64.inf true) (F64.fin 0) (F64.fin 0) = some ComparisonResult.Unequal := by
  have h := comparison_primitives_total F64.nan (F64.inf true) (F64.fin 0)
    (F64.fin 0) (by norm_num [F64.ieeeLe]) (by norm_num [F64.ieeeLe])
  refine ⟨?_, ?_, ?_⟩
  · rw [h.1]
    norm_num [compare_approximate_equality_by_margin, F64.ieeeEq]
  · rw [h.2.1]
    norm_num [compare_approximate_equality_by_multiplier, F64.ieeeEq]
  · rw [h.2.2]
    norm_num [compare_approximate_equality_by_zero_margin_or_multiplier, F64.ieeeEq]
